import Mathlib

/-!
Verification of the `waverly` task-orchestration core: a shallow embedding of
`src/waverly/nuclei.py` (task descriptor, command builder, task runner) and
`src/waverly/tasks.py` (task registry / manager), with theorems settling the
specification's claims about them.

Conventions of the embedding:
* Python `float` progress values are modelled as rationals (`ℚ`); every value
  the code manipulates (`0.0`, `0.99`, `1.0`, `processed / total`) is exact.
* Timestamps (`time.time()`) are opaque inputs, passed as `Nat` parameters.
* `pathlib.Path` values are modelled by their string rendering, since the code
  only ever turns them into strings with `str(...)` and tests their truthiness
  (a `Path` object is always truthy in Python).
* The external JSON parser (`json.loads`) is not re-implemented: each stdout
  line is modelled by its decode outcome (`OutLine`), which is the only thing
  the runner's control flow inspects.
-/

/-- A JSON value, as decoded by `json.loads`. Mirrors the Python data model:
objects, arrays, strings, numbers, booleans and null. -/
inductive JVal where
  | obj (fields : List (String × JVal))
  | arr (items : List JVal)
  | str (s : String)
  | num (q : ℚ)
  | bool (b : Bool)
  | null
  deriving Repr

/-- `payload.get(key, default)` on a decoded JSON object: the value of the
first field named `key`, else `default`. -/
def JVal.get (fields : List (String × JVal)) (key : String) (default : JVal) : JVal :=
  match fields.find? (fun kv => kv.1 = key) with
  | some kv => kv.2
  | none => default

/-- `NucleiTargetResult` from `src/waverly/nuclei.py`: one parsed match.
The Python dataclass annotates `template_id`/`matched_at` as `str`, but the
annotations are unenforced and `payload.get` can return any JSON value, so the
fields hold `JVal`. -/
structure NucleiTargetResult where
  template_id : JVal
  matched_at : JVal
  info : JVal
  raw : JVal
  deriving Repr

/-- `NucleiTask` from `src/waverly/nuclei.py`: immutable launch parameters
plus mutable run state. `rate_limit`/`concurrency` are `Option Int` (Python
`Optional[int]`), `progress` is `ℚ`, timestamps are `Option Nat`. -/
structure NucleiTask where
  name : String
  targets : List String
  templates : List String
  binary : String := "nuclei"
  rate_limit : Option Int := none
  concurrency : Option Int := none
  severity : Option String := none
  dnslog_server : Option String := none
  proxy : Option String := none
  output_path : Option String := none
  status : String := "pending"
  progress : ℚ := 0
  results : List NucleiTargetResult := []
  error : Option String := none
  created_at : Nat := 0
  started_at : Option Nat := none
  finished_at : Option Nat := none
  identifier : String := ""
  deriving Repr

/-- Python truthiness test `if self.rate_limit:` on an `Optional[int]`:
falsy exactly when `None` or `0`. If truthy the flag/value pair is emitted. -/
def optIntArgs (flag : String) : Option Int → List String
  | none => []
  | some n => if n = 0 then [] else [flag, toString n]

/-- Python truthiness test on an `Optional[str]`: falsy exactly when `None`
or the empty string. If truthy the flag/value pair is emitted. -/
def optStrArgs (flag : String) : Option String → List String
  | none => []
  | some s => if s = "" then [] else [flag, s]

/-- Python truthiness test `if self.output_path:` on an `Optional[Path]`:
a `Path` object is always truthy, so only `None` is falsy. -/
def optPathArgs (flag : String) : Option String → List String
  | none => []
  | some p => [flag, p]

/-- `NucleiTask.build_command` from `src/waverly/nuclei.py` lines 54–72:
`[binary, "-json"]`, then `-rl`, `-c`, `-severity`, `-proxy`,
`-interactsh-url` for each truthy option, then `-t`/template pairs,
`-target`/target pairs, and finally `-o`/output if set. -/
def NucleiTask.build_command (t : NucleiTask) : List String :=
  [t.binary, "-json"]
    ++ optIntArgs "-rl" t.rate_limit
    ++ optIntArgs "-c" t.concurrency
    ++ optStrArgs "-severity" t.severity
    ++ optStrArgs "-proxy" t.proxy
    ++ optStrArgs "-interactsh-url" t.dnslog_server
    ++ (t.templates.map (fun tp => ["-t", tp])).flatten
    ++ (t.targets.map (fun tg => ["-target", tg])).flatten
    ++ optPathArgs "-o" t.output_path

/-- The spec's notion of appending a flag/value pair "if the option is set":
emitted for every `some` value, with no truthiness test. -/
def setArg {α : Type} (flag : String) (render : α → String) : Option α → List String
  | none => []
  | some v => [flag, render v]

/-- The command vector as the specification's §4.1 words describe it: the
structured-output flag first, then for each *set* option its flag/value in
the order rate limit, concurrency, severity, proxy, callback-log endpoint,
then one flag/value per template in order, one per target in order, and the
output flag/value last if set. Written from the spec, for comparison with
`NucleiTask.build_command`. -/
def build_command_spec (t : NucleiTask) : List String :=
  [t.binary, "-json"]
    ++ setArg "-rl" toString t.rate_limit
    ++ setArg "-c" toString t.concurrency
    ++ setArg "-severity" id t.severity
    ++ setArg "-proxy" id t.proxy
    ++ setArg "-interactsh-url" id t.dnslog_server
    ++ (t.templates.map (fun tp => ["-t", tp])).flatten
    ++ (t.targets.map (fun tg => ["-target", tg])).flatten
    ++ setArg "-o" id t.output_path

/-- One line of the subprocess's standard output, classified by what the
runner's control flow observes after `line.strip()` and `json.loads(line)`:
it strips to empty, it fails JSON decoding (`json.JSONDecodeError`), or it
decodes to a JSON value `v`. -/
inductive OutLine where
  | blank
  | invalid
  | decoded (v : JVal)
  deriving Repr

/-- Outcome of `subprocess.Popen` plus the subsequent observable behaviour of
the spawned process: `FileNotFoundError`, another spawn exception, or success
with the process's stdout lines, final stderr text and exit code. -/
inductive SpawnOutcome where
  | fileNotFound
  | otherError (msg : String)
  | ok (stdout : List OutLine) (stderr : String) (exitCode : Int)
  deriving Repr

/-- The exceptions that can propagate out of `NucleiRunner._run_task`. -/
inductive ExnKind where
  | nucleiExecutionError (msg : String)
  | spawnError (msg : String)
  | attributeError
  | callbackFault
  | drainFault
  deriving Repr, DecidableEq

/-- An operation on the runner's active-process registry (`self._active`). -/
inductive RegOp where
  | register (id : String)
  | unregister (id : String)
  deriving Repr, DecidableEq

/-- Environment faults injected into a run: `cbFault k` says the callback
raises on its `k`-th invocation (0-indexed, counted over the whole run), and
`drainFault` says reading the process's stderr raises. -/
structure FaultModel where
  cbFault : Nat → Bool
  drainFault : Bool

/-- The fault-free environment. -/
def noFaults : FaultModel := ⟨fun _ => false, false⟩

/-- Everything observable about one `_run_task` execution: the task's final
state, the sequence of task snapshots passed to the callback, the operations
performed on the active-process registry, and the exception (if any) that
propagates to the caller. -/
structure RunResult where
  task : NucleiTask
  callbacks : List NucleiTask
  regOps : List RegOp
  exn : Option ExnKind
  deriving Repr

/-- Mutable state threaded through the streaming `for` loop of `_run_task`:
the task, the `processed` counter, the number of callback invocations made so
far, the snapshots passed to the callback, and a pending exception. -/
structure LoopState where
  task : NucleiTask
  processed : Nat
  cbIdx : Nat
  callbacks : List NucleiTask
  exn : Option ExnKind
  deriving Repr

/-- One iteration of the streaming loop (`src/waverly/nuclei.py` lines
139–158): skip blank lines and lines raising `json.JSONDecodeError`; for a
decoded JSON object build a `NucleiTargetResult`, append it, bump `processed`,
recompute `progress = min(processed / total, 0.99)` and invoke the callback;
a decoded non-object value makes `payload.get` raise `AttributeError`. -/
def streamStep (total : Nat) (hasCb : Bool) (fm : FaultModel) (st : LoopState) :
    OutLine → LoopState
  | .blank => st
  | .invalid => st
  | .decoded (.obj fields) =>
      let r : NucleiTargetResult :=
        { template_id := JVal.get fields "templateID" (.str "")
          matched_at := JVal.get fields "matched-at" (.str "")
          info := JVal.get fields "info" (.obj [])
          raw := .obj fields }
      let processed := st.processed + 1
      let task := { st.task with
        results := st.task.results ++ [r]
        progress := min ((processed : ℚ) / (total : ℚ)) (99/100) }
      if hasCb then
        { task := task, processed := processed, cbIdx := st.cbIdx + 1
          callbacks := st.callbacks ++ [task]
          exn := if fm.cbFault st.cbIdx then some .callbackFault else none }
      else
        { st with task := task, processed := processed }
  | .decoded _ => { st with exn := some .attributeError }

/-- The streaming `for` loop: iterate `streamStep` over the stdout lines,
stopping early when an exception is raised. -/
def streamLoop (total : Nat) (hasCb : Bool) (fm : FaultModel) :
    List OutLine → LoopState → LoopState
  | [], st => st
  | line :: rest, st =>
      let st1 := streamStep total hasCb fm st line
      match st1.exn with
      | some _ => st1
      | none => streamLoop total hasCb fm rest st1

/-- `NucleiRunner._run_task` from `src/waverly/nuclei.py` lines 107–174.
`hasCb` is whether a callback was supplied; `tFail`, `tStart`, `tFinish` are
the values `time.time()` returns at the three call sites. On spawn failure:
status=error, error message, finish timestamp, one callback, raise. On spawn
success: status=running, start timestamp, register the process, stream stdout
(`streamLoop`), then drain stderr, wait, classify by exit code; the `finally`
block unregisters the process and invokes the callback on every path. -/
def runTask (task0 : NucleiTask) (outcome : SpawnOutcome) (hasCb : Bool)
    (fm : FaultModel) (tFail tStart tFinish : Nat) : RunResult :=
  match outcome with
  | .fileNotFound =>
      let msg := "Nuclei binary not found: " ++ task0.binary
      let t := { task0 with status := "error", error := some msg, finished_at := some tFail }
      { task := t
        callbacks := if hasCb then [t] else []
        regOps := []
        exn := if hasCb && fm.cbFault 0 then some .callbackFault
               else some (.nucleiExecutionError msg) }
  | .otherError msg =>
      let t := { task0 with status := "error", error := some msg, finished_at := some tFail }
      { task := t
        callbacks := if hasCb then [t] else []
        regOps := []
        exn := if hasCb && fm.cbFault 0 then some .callbackFault
               else some (.spawnError msg) }
  | .ok stdout stderr exitCode =>
      let t1 := { task0 with status := "running", started_at := some tStart }
      let total := max task0.targets.length 1
      let st := streamLoop total hasCb fm stdout
        { task := t1, processed := 0, cbIdx := 0, callbacks := [], exn := none }
      let completed :=
        match st.exn with
        | some e => (st.task, some e)
        | none =>
            if fm.drainFault then (st.task, some ExnKind.drainFault)
            else
              let t := { st.task with finished_at := some tFinish }
              if exitCode ≠ 0 then
                ({ t with status := "error"
                          error := some (if stderr = ""
                            then "Nuclei exited with code " ++ toString exitCode
                            else stderr) }, none)
              else
                ({ t with status := "completed", progress := 1 }, none)
      { task := completed.1
        callbacks := st.callbacks ++ (if hasCb then [completed.1] else [])
        regOps := [.register task0.identifier, .unregister task0.identifier]
        exn := if hasCb && fm.cbFault st.cbIdx then some .callbackFault else completed.2 }

/-- Python's `str.strip()` whitespace set: space, tab, newline, carriage
return, vertical tab, form feed. -/
def pyIsSpace (c : Char) : Bool :=
  c = ' ' || c = '\t' || c = '\n' || c = '\r' || c = Char.ofNat 11 || c = Char.ofNat 12

/-- Python's `str.strip()`: remove leading and trailing whitespace. -/
def pyStrip (s : String) : String :=
  ⟨((s.toList.dropWhile pyIsSpace).reverse.dropWhile pyIsSpace).reverse⟩

namespace TaskManager

/-- The list comprehension in `TaskManager.create_task`
(`src/waverly/tasks.py` line 50):
`[target.strip() for target in targets if target.strip()]`. -/
def createTargets (targets : List String) : List String :=
  targets.filterMap (fun tg => if pyStrip tg = "" then none else some (pyStrip tg))

/-- `TaskManager.create_task` from `src/waverly/tasks.py` lines 34–62: the
Task Descriptor it constructs. Templates pass through `_resolve_template`,
which is the identity. `ident` and `t` stand for the fresh `uuid4().hex` and
`time.time()` the dataclass defaults draw. -/
def create_task (name : String) (targets : List String) (templates : List String)
    (binary : String := "nuclei") (rate_limit : Option Int := none)
    (concurrency : Option Int := none) (severity : Option String := none)
    (dnslog_server : Option String := none) (proxy : Option String := none)
    (ident : String := "") (t : Nat := 0) : NucleiTask :=
  { name := name
    targets := createTargets targets
    templates := templates
    binary := binary
    rate_limit := rate_limit
    concurrency := concurrency
    severity := severity
    dnslog_server := dnslog_server
    proxy := proxy
    created_at := t
    identifier := ident }

/-- `TaskManager.clear_finished` from `src/waverly/tasks.py` lines 84–90:
rebuild the registry keeping exactly the entries whose status is not in
`{"completed", "error"}`. The registry is modelled as an insertion-ordered
association list, as a Python dict is. -/
def clear_finished (tasks : List (String × NucleiTask)) : List (String × NucleiTask) :=
  tasks.filter (fun kv => !(kv.2.status == "completed" || kv.2.status == "error"))

/-- `TaskManager.add_listener`: append to the listener list. -/
def add_listener {L : Type} (listeners : List L) (l : L) : List L :=
  listeners ++ [l]

/-- `TaskManager.remove_listener`: `list.remove` drops the first matching
entry; the `ValueError` for an absent listener is swallowed (no-op). -/
def remove_listener {L : Type} [BEq L] (listeners : List L) (l : L) : List L :=
  listeners.erase l

/-- The `for listener in list(self._listeners): listener(task)` loop of
`notify_listeners`: iterate over the snapshot taken at entry while each
invoked listener may mutate the live listener list (`effect l task cur` is
the live list after listener `l` handles `task` on live list `cur`). Returns
the sequence of (listener, task) invocations and the final live list. -/
def notifyLoop {L : Type} (effect : L → NucleiTask → List L → List L)
    (task : NucleiTask) : List L → List L → List (L × NucleiTask) × List L
  | [], cur => ([], cur)
  | l :: rest, cur =>
      let cur1 := effect l task cur
      let step := notifyLoop effect task rest cur1
      ((l, task) :: step.1, step.2)

/-- `TaskManager.notify_listeners` from `src/waverly/tasks.py` lines 30–32:
snapshot the listener list with `list(self._listeners)`, then invoke each
snapshot entry on the task, in order. -/
def notify_listeners {L : Type} (listeners : List L)
    (effect : L → NucleiTask → List L → List L) (task : NucleiTask) :
    List (L × NucleiTask) × List L :=
  notifyLoop effect task listeners listeners

end TaskManager

/-- A stdout line that the streaming loop turns into a result record:
one that decodes to a JSON object. -/
def OutLine.isRecord : OutLine → Bool
  | .decoded (.obj _) => true
  | _ => false

/-- A stdout line that makes the streaming loop raise `AttributeError`:
one that decodes to JSON whose top-level value is not an object
(`payload.get` is then called on a non-dict). -/
def OutLine.isBad : OutLine → Bool
  | .decoded (.obj _) => false
  | .decoded _ => true
  | _ => false

/-- A decoded output record of the shape the scanner emits: template id,
match timestamp and an info object carrying a severity. -/
def sampleRecord : JVal :=
  .obj [("templateID", .str "demo"), ("matched-at", .str "https://example.com"),
    ("info", .obj [("severity", .str "high")])]

/-- A freshly created task (status pending, progress 0, no results, no
timestamps), used to exercise the runner on concrete inputs. -/
def freshTask : NucleiTask :=
  { name := "scan"
    targets := ["https://example.com"]
    templates := ["demo.yaml"]
    identifier := "task-1" }

/-- The spec's §8 example task: one target, one template, rate limit 50,
concurrency 10, severity "medium". -/
def demoTask : NucleiTask :=
  { name := "demo"
    targets := ["https://example.com"]
    templates := ["demo.yaml"]
    rate_limit := some 50
    concurrency := some 10
    severity := some "medium"
    identifier := "w3" }

section HelperLemmas

/-- `optIntArgs` agrees with the spec's unconditional reading of "set"
whenever the set value is not the falsy `0`. -/
lemma optIntArgs_eq_spec (flag : String) (o : Option Int) (h : o ≠ some 0) :
    optIntArgs flag o = setArg flag toString o := by
  cases o with
  | none => rfl
  | some n =>
      have hn : n ≠ 0 := by intro hn0; exact h (by simp [hn0])
      simp [optIntArgs, setArg, hn]

/-- `optStrArgs` agrees with the spec's unconditional reading of "set"
whenever the set value is not the falsy empty string. -/
lemma optStrArgs_eq_spec (flag : String) (o : Option String) (h : o ≠ some "") :
    optStrArgs flag o = setArg flag id o := by
  cases o with
  | none => rfl
  | some s =>
      have hs : s ≠ "" := by intro hs0; exact h (by simp [hs0])
      simp [optStrArgs, setArg, hs]

/-- `optPathArgs` agrees with the spec's reading of "set" on paths. -/
lemma optPathArgs_eq_spec (flag : String) (o : Option String) :
    optPathArgs flag o = setArg flag id o := by
  cases o <;> rfl

/-- `createTargets` is the stripped inputs with falsy (empty) strips
dropped, in input order. -/
lemma createTargets_eq (targets : List String) :
    TaskManager.createTargets targets
      = (targets.map pyStrip).filter (fun s => !(s == "")) := by
  induction targets with
  | nil => rfl
  | cons hd tl ih =>
      by_cases h : pyStrip hd = ""
      · rw [List.map_cons, List.filter_cons_of_neg (by simp [h])]
        simpa [TaskManager.createTargets, List.filterMap_cons, h] using ih
      · rw [List.map_cons, List.filter_cons_of_pos (by simp [h])]
        simpa [TaskManager.createTargets, List.filterMap_cons, h] using ih

end HelperLemmas

/-- C3: `build_command` is a pure function of the launch parameters producing
the argument vector in the spec's §4.1 order — structured-output flag first,
then rate limit, concurrency, severity, proxy, callback-log endpoint when
set, then `-t`/template pairs in order, `-target`/target pairs in order, and
finally the output flag — dropping no configured option. Stated as equality
with `build_command_spec`, the vector the spec's words prescribe, for all
tasks whose set options are not Python-falsy (which the data model rules out:
rate limit and concurrency are positive, severity/proxy/endpoint nonempty). -/
theorem build_command_matches_spec (t : NucleiTask)
    (hrl : t.rate_limit ≠ some 0) (hc : t.concurrency ≠ some 0)
    (hsev : t.severity ≠ some "") (hpx : t.proxy ≠ some "")
    (hdns : t.dnslog_server ≠ some "") :
    t.build_command = build_command_spec t := by
  unfold NucleiTask.build_command build_command_spec
  rw [optIntArgs_eq_spec _ _ hrl, optIntArgs_eq_spec _ _ hc,
    optStrArgs_eq_spec _ _ hsev, optStrArgs_eq_spec _ _ hpx,
    optStrArgs_eq_spec _ _ hdns, optPathArgs_eq_spec]

/-- C3 witness: the spec's §8 example task — one target, one template,
rate limit 50, concurrency 10, severity "medium" — evaluated concretely. -/
theorem build_command_matches_spec_witness :
    NucleiTask.build_command demoTask = build_command_spec demoTask ∧
    NucleiTask.build_command demoTask
      = ["nuclei", "-json", "-rl", "50", "-c", "10", "-severity", "medium",
         "-t", "demo.yaml", "-target", "https://example.com"] :=
  ⟨build_command_matches_spec demoTask (by decide) (by decide) (by decide)
    (by decide) (by decide), by rfl⟩

/-- C8 counterexample: `create_task` does not deduplicate targets — passing
the same target twice yields a targets list with a duplicate entry. -/
theorem create_task_targets_duplicate :
    ¬ (TaskManager.create_task "demo" ["https://a.example", "https://a.example"]
        []).targets.Nodup := by
  decide

/-- C8 (amended): the Task Descriptor constructed by `create_task` has a
targets list with no empty strings — each input is whitespace-stripped and
inputs stripping to empty are dropped, preserving input order — but
duplicates are NOT removed. -/
theorem create_task_targets_stripped (name : String)
    (targets templates : List String) :
    "" ∉ (TaskManager.create_task name targets templates).targets ∧
    (TaskManager.create_task name targets templates).targets
      = (targets.map pyStrip).filter (fun s => !(s == "")) := by
  refine ⟨?_, ?_⟩
  · intro hmem
    simp only [TaskManager.create_task, createTargets_eq] at hmem
    have := List.of_mem_filter hmem
    simp at this
  · simp [TaskManager.create_task, createTargets_eq]

/-- C9: `clear_finished` keeps exactly the registry entries whose status is
neither "completed" nor "error": an entry (identifier and unchanged task) is
in the cleared registry iff it was present before with a non-finished
status. -/
theorem clear_finished_mem_iff (m : List (String × NucleiTask))
    (p : String × NucleiTask) :
    p ∈ TaskManager.clear_finished m ↔
      p ∈ m ∧ p.2.status ≠ "completed" ∧ p.2.status ≠ "error" := by
  simp [TaskManager.clear_finished, List.mem_filter, not_or, and_assoc]

/-- C10: `notify_listeners` invokes exactly the listeners registered at the
moment the fan-out begins, each exactly once with the same task snapshot, in
registration order — for every mutation behaviour `effect` the invoked
listeners may apply to the live listener list during the fan-out. -/
theorem notify_listeners_calls {L : Type} (listeners : List L)
    (effect : L → NucleiTask → List L → List L) (task : NucleiTask) :
    (TaskManager.notify_listeners listeners effect task).1
      = listeners.map (fun l => (l, task)) := by
  suffices h : ∀ snap cur, (TaskManager.notifyLoop effect task snap cur).1
      = snap.map (fun l => (l, task)) from h listeners listeners
  intro snap
  induction snap with
  | nil => intro cur; rfl
  | cons l rest ih => intro cur; simp [TaskManager.notifyLoop, ih]

section StreamLoopLemmas

variable (total : Nat) (hasCb : Bool) (fm : FaultModel)

/-- Unfolding of one iteration of the streaming loop. -/
lemma streamLoop_cons (line : OutLine) (rest : List OutLine) (st : LoopState) :
    streamLoop total hasCb fm (line :: rest) st
      = match (streamStep total hasCb fm st line).exn with
        | some _ => streamStep total hasCb fm st line
        | none => streamLoop total hasCb fm rest (streamStep total hasCb fm st line) := rfl

/-- One streaming iteration never touches the task's status, timestamps or
error message — only results and progress. -/
lemma streamStep_task_fields (st : LoopState) (line : OutLine) :
    (streamStep total hasCb fm st line).task.status = st.task.status ∧
    (streamStep total hasCb fm st line).task.started_at = st.task.started_at ∧
    (streamStep total hasCb fm st line).task.finished_at = st.task.finished_at ∧
    (streamStep total hasCb fm st line).task.error = st.task.error := by
  cases line with
  | blank => exact ⟨rfl, rfl, rfl, rfl⟩
  | invalid => exact ⟨rfl, rfl, rfl, rfl⟩
  | decoded v =>
      cases v with
      | obj fields => cases hasCb <;> simp [streamStep]
      | arr items => exact ⟨rfl, rfl, rfl, rfl⟩
      | str s => exact ⟨rfl, rfl, rfl, rfl⟩
      | num q => exact ⟨rfl, rfl, rfl, rfl⟩
      | bool b => exact ⟨rfl, rfl, rfl, rfl⟩
      | null => exact ⟨rfl, rfl, rfl, rfl⟩

/-- The whole streaming loop never touches the task's status, timestamps or
error message. -/
lemma streamLoop_task_fields (lines : List OutLine) :
    ∀ st : LoopState,
      (streamLoop total hasCb fm lines st).task.status = st.task.status ∧
      (streamLoop total hasCb fm lines st).task.started_at = st.task.started_at ∧
      (streamLoop total hasCb fm lines st).task.finished_at = st.task.finished_at ∧
      (streamLoop total hasCb fm lines st).task.error = st.task.error := by
  induction lines with
  | nil => intro st; exact ⟨rfl, rfl, rfl, rfl⟩
  | cons line rest ih =>
      intro st
      obtain ⟨h1, h2, h3, h4⟩ := streamStep_task_fields total hasCb fm st line
      rw [streamLoop_cons]
      cases hexn : (streamStep total hasCb fm st line).exn with
      | some e => exact ⟨h1, h2, h3, h4⟩
      | none =>
          obtain ⟨g1, g2, g3, g4⟩ := ih (streamStep total hasCb fm st line)
          exact ⟨g1.trans h1, g2.trans h2, g3.trans h3, g4.trans h4⟩

/-- Every callback snapshot added during streaming carries the task's current
status and a progress capped at 0.99; snapshots are appended, never removed. -/
lemma streamLoop_callbacks (lines : List OutLine) :
    ∀ st : LoopState, ∃ added : List NucleiTask,
      (streamLoop total hasCb fm lines st).callbacks = st.callbacks ++ added ∧
      ∀ c ∈ added, c.status = st.task.status ∧ c.progress ≤ 99/100 := by
  induction lines with
  | nil => intro st; exact ⟨[], by simp [streamLoop]⟩
  | cons line rest ih =>
      intro st
      have hstep : ∃ stepAdd : List NucleiTask,
          (streamStep total hasCb fm st line).callbacks = st.callbacks ++ stepAdd ∧
          ∀ c ∈ stepAdd, c.status = st.task.status ∧ c.progress ≤ 99/100 := by
        cases line with
        | blank => exact ⟨[], by simp [streamStep]⟩
        | invalid => exact ⟨[], by simp [streamStep]⟩
        | decoded v =>
            cases v with
            | obj fields =>
                cases hasCb with
                | false => exact ⟨[], by simp [streamStep]⟩
                | true =>
                    refine ⟨_, rfl, ?_⟩
                    intro c hc
                    rw [List.mem_singleton] at hc
                    subst hc
                    exact ⟨rfl, min_le_right _ _⟩
            | arr items => exact ⟨[], by simp [streamStep]⟩
            | str s => exact ⟨[], by simp [streamStep]⟩
            | num q => exact ⟨[], by simp [streamStep]⟩
            | bool b => exact ⟨[], by simp [streamStep]⟩
            | null => exact ⟨[], by simp [streamStep]⟩
      obtain ⟨stepAdd, hsa, hsaP⟩ := hstep
      obtain ⟨hst, -, -, -⟩ := streamStep_task_fields total hasCb fm st line
      rw [streamLoop_cons]
      cases hexn : (streamStep total hasCb fm st line).exn with
      | some e => exact ⟨stepAdd, hsa, hsaP⟩
      | none =>
          obtain ⟨restAdd, hra, hraP⟩ := ih (streamStep total hasCb fm st line)
          refine ⟨stepAdd ++ restAdd, by rw [hra, hsa, List.append_assoc], ?_⟩
          intro c hc
          rcases List.mem_append.mp hc with hc | hc
          · exact hsaP c hc
          · have := hraP c hc
            exact ⟨hst ▸ this.1, this.2⟩

/-- On a stream free of non-object decoded lines, with a callback that never
faults, the streaming loop raises nothing, appends exactly one result per
decoded-object line, and (when a callback is present) makes exactly one
callback invocation per result. -/
lemma streamLoop_good (hcb : ∀ k, fm.cbFault k = false) (lines : List OutLine) :
    ∀ st : LoopState, st.exn = none → (∀ l ∈ lines, l.isBad = false) →
      (streamLoop total hasCb fm lines st).exn = none ∧
      (streamLoop total hasCb fm lines st).task.results.length
        = st.task.results.length + lines.countP OutLine.isRecord ∧
      (streamLoop total hasCb fm lines st).callbacks.length
        = st.callbacks.length + (if hasCb then lines.countP OutLine.isRecord else 0) := by
  induction lines with
  | nil =>
      intro st hexn _
      refine ⟨hexn, by simp [streamLoop], by simp [streamLoop]⟩
  | cons line rest ih =>
      intro st hexn hgood
      have hgoodRest : ∀ l ∈ rest, l.isBad = false :=
        fun l hl => hgood l (List.mem_cons_of_mem _ hl)
      rw [streamLoop_cons]
      cases line with
      | blank =>
          have hstep : streamStep total hasCb fm st .blank = st := rfl
          rw [hstep, hexn]
          have := ih st hexn hgoodRest
          simpa [List.countP_cons, OutLine.isRecord] using this
      | invalid =>
          have hstep : streamStep total hasCb fm st .invalid = st := rfl
          rw [hstep, hexn]
          have := ih st hexn hgoodRest
          simpa [List.countP_cons, OutLine.isRecord] using this
      | decoded v =>
          cases v with
          | obj fields =>
              have hexn1 : (streamStep total hasCb fm st (.decoded (.obj fields))).exn
                  = none := by
                cases hasCb with
                | false => simpa [streamStep] using hexn
                | true => simp [streamStep, hcb]
              have hres1 : (streamStep total hasCb fm st
                    (.decoded (.obj fields))).task.results.length
                  = st.task.results.length + 1 := by
                cases hasCb <;> simp [streamStep]
              have hcbs1 : (streamStep total hasCb fm st
                    (.decoded (.obj fields))).callbacks.length
                  = st.callbacks.length + (if hasCb then 1 else 0) := by
                cases hasCb <;> simp [streamStep]
              rw [hexn1]
              obtain ⟨g1, g2, g3⟩ := ih _ hexn1 hgoodRest
              refine ⟨g1, ?_, ?_⟩
              · rw [g2, hres1]
                simp [List.countP_cons, OutLine.isRecord]
                omega
              · rw [g3, hcbs1]
                cases hasCb with
                | false => simp [List.countP_cons, OutLine.isRecord]
                | true =>
                    simp [List.countP_cons, OutLine.isRecord]
                    omega
          | arr items =>
              exact absurd (hgood _ (List.mem_cons_self _ _)) (by simp [OutLine.isBad])
          | str s =>
              exact absurd (hgood _ (List.mem_cons_self _ _)) (by simp [OutLine.isBad])
          | num q =>
              exact absurd (hgood _ (List.mem_cons_self _ _)) (by simp [OutLine.isBad])
          | bool b =>
              exact absurd (hgood _ (List.mem_cons_self _ _)) (by simp [OutLine.isBad])
          | null =>
              exact absurd (hgood _ (List.mem_cons_self _ _)) (by simp [OutLine.isBad])

end StreamLoopLemmas

section ProgressChain

/-- Replacing the final element of a progress-ordered chain by a task with at
least its progress preserves the chain. -/
lemma chain_progress_replace (a b : NucleiTask) (hab : a.progress ≤ b.progress) :
    ∀ l : List NucleiTask,
      List.Chain' (fun x y => x.progress ≤ y.progress) (l ++ [a]) →
      List.Chain' (fun x y => x.progress ≤ y.progress) (l ++ [b]) := by
  intro l
  induction l with
  | nil => intro _; exact List.chain'_singleton b
  | cons x l ih =>
      intro h
      rw [List.cons_append, List.chain'_cons'] at h ⊢
      obtain ⟨hhead, htail⟩ := h
      refine ⟨?_, ih htail⟩
      intro z hz
      cases l with
      | nil =>
          simp only [List.nil_append, List.head?_cons, Option.mem_def,
            Option.some.injEq] at hz
          subst hz
          exact le_trans (hhead a (by simp)) hab
      | cons w l2 =>
          simp only [List.cons_append, List.head?_cons, Option.mem_def,
            Option.some.injEq] at hz
          subst hz
          exact hhead w (by simp)

/-- Appending a task with at least the final progress extends a
progress-ordered chain. -/
lemma chain_progress_extend (l : List NucleiTask) (a b : NucleiTask)
    (h : List.Chain' (fun x y => x.progress ≤ y.progress) (l ++ [a]))
    (hab : a.progress ≤ b.progress) :
    List.Chain' (fun x y => x.progress ≤ y.progress) ((l ++ [a]) ++ [b]) := by
  rw [List.chain'_append]
  refine ⟨h, List.chain'_singleton b, ?_⟩
  intro x hx y hy
  rw [List.getLast?_concat, Option.mem_def, Option.some.injEq] at hx
  simp only [List.head?_cons, Option.mem_def, Option.some.injEq] at hy
  subst hx; subst hy
  exact hab

/-- Streaming keeps `progress = min(processed / total, 0.99)`, keeps the
callback trace (ending in the current task) a non-decreasing progress chain,
and keeps every progress value non-negative. -/
lemma streamLoop_chain (total : Nat) (fm : FaultModel) (lines : List OutLine) :
    ∀ st : LoopState,
      st.task.progress = min ((st.processed : ℚ) / (total : ℚ)) (99/100) →
      List.Chain' (fun a b => a.progress ≤ b.progress) (st.callbacks ++ [st.task]) →
      (∀ c ∈ st.callbacks ++ [st.task], 0 ≤ c.progress) →
      ((streamLoop total true fm lines st).task.progress
        = min (((streamLoop total true fm lines st).processed : ℚ) / (total : ℚ))
            (99/100)) ∧
      List.Chain' (fun a b => a.progress ≤ b.progress)
        ((streamLoop total true fm lines st).callbacks
          ++ [(streamLoop total true fm lines st).task]) ∧
      (∀ c ∈ (streamLoop total true fm lines st).callbacks
          ++ [(streamLoop total true fm lines st).task], 0 ≤ c.progress) := by
  induction lines with
  | nil => intro st h1 h2 h3; exact ⟨h1, h2, h3⟩
  | cons line rest ih =>
      intro st h1 h2 h3
      rw [streamLoop_cons]
      cases line with
      | blank =>
          cases hexn : (streamStep total true fm st .blank).exn with
          | some e => exact ⟨h1, h2, h3⟩
          | none => exact ih st h1 h2 h3
      | invalid =>
          cases hexn : (streamStep total true fm st .invalid).exn with
          | some e => exact ⟨h1, h2, h3⟩
          | none => exact ih st h1 h2 h3
      | decoded v =>
          cases v with
          | obj fields =>
              have f1 : (streamStep total true fm st (.decoded (.obj fields))).task.progress
                  = min (((st.processed + 1 : Nat) : ℚ) / (total : ℚ)) (99/100) := rfl
              have f2 : (streamStep total true fm st (.decoded (.obj fields))).processed
                  = st.processed + 1 := rfl
              have f3 : (streamStep total true fm st (.decoded (.obj fields))).callbacks
                  = st.callbacks ++ [(streamStep total true fm st (.decoded (.obj fields))).task]
                  := rfl
              have hdiv : (st.processed : ℚ) / (total : ℚ)
                  ≤ ((st.processed + 1 : Nat) : ℚ) / (total : ℚ) := by
                rcases Nat.eq_zero_or_pos total with h0 | h0
                · simp [h0]
                · have hpos : (0 : ℚ) < (total : ℚ) := by exact_mod_cast h0
                  rw [div_le_div_iff_of_pos_right hpos]
                  exact_mod_cast Nat.le_succ _
              have hmono : st.task.progress
                  ≤ (streamStep total true fm st (.decoded (.obj fields))).task.progress := by
                rw [h1, f1]
                exact min_le_min hdiv le_rfl
              have hp0 : 0 ≤ (streamStep total true fm st (.decoded (.obj fields))).task.progress := by
                rw [f1]
                exact le_min (div_nonneg (by positivity) (by positivity)) (by norm_num)
              have inv1 : (streamStep total true fm st (.decoded (.obj fields))).task.progress
                  = min (((streamStep total true fm st (.decoded (.obj fields))).processed : ℚ)
                      / (total : ℚ)) (99/100) := by
                rw [f1, f2]
              have chain1 : List.Chain' (fun a b => a.progress ≤ b.progress)
                  ((streamStep total true fm st (.decoded (.obj fields))).callbacks
                    ++ [(streamStep total true fm st (.decoded (.obj fields))).task]) := by
                rw [f3]
                exact chain_progress_extend _ _ _
                  (chain_progress_replace _ _ hmono _ h2) le_rfl
              have nonneg1 : ∀ c ∈ (streamStep total true fm st (.decoded (.obj fields))).callbacks
                  ++ [(streamStep total true fm st (.decoded (.obj fields))).task],
                  0 ≤ c.progress := by
                intro c hc
                rw [f3] at hc
                rcases List.mem_append.mp hc with hc | hc
                · rcases List.mem_append.mp hc with hc | hc
                  · exact h3 c (List.mem_append_left _ hc)
                  · rw [List.mem_singleton] at hc; subst hc; exact hp0
                · rw [List.mem_singleton] at hc; subst hc; exact hp0
              cases hexn : (streamStep total true fm st (.decoded (.obj fields))).exn with
              | some e => exact ⟨inv1, chain1, nonneg1⟩
              | none => exact ih _ inv1 chain1 nonneg1
          | arr items =>
              cases hexn : (streamStep total true fm st (.decoded (.arr items))).exn with
              | some e => exact ⟨h1, h2, h3⟩
              | none => simp [streamStep] at hexn
          | str s =>
              cases hexn : (streamStep total true fm st (.decoded (.str s))).exn with
              | some e => exact ⟨h1, h2, h3⟩
              | none => simp [streamStep] at hexn
          | num q =>
              cases hexn : (streamStep total true fm st (.decoded (.num q))).exn with
              | some e => exact ⟨h1, h2, h3⟩
              | none => simp [streamStep] at hexn
          | bool b =>
              cases hexn : (streamStep total true fm st (.decoded (.bool b))).exn with
              | some e => exact ⟨h1, h2, h3⟩
              | none => simp [streamStep] at hexn
          | null =>
              cases hexn : (streamStep total true fm st (.decoded (.null))).exn with
              | some e => exact ⟨h1, h2, h3⟩
              | none => simp [streamStep] at hexn

end ProgressChain

/-- C7: on every exit path of a run that successfully spawned a process — for
every stream content (including aborting lines), every exit code, every
callback-fault pattern and drain fault — the runner registers the process
handle under the task's identifier and then unregisters it, so no finished
run leaves its identifier registered. -/
theorem process_always_unregistered (task0 : NucleiTask) (stdout : List OutLine)
    (stderr : String) (exitCode : Int) (hasCb : Bool) (fm : FaultModel)
    (tFail tStart tFinish : Nat) :
    (runTask task0 (.ok stdout stderr exitCode) hasCb fm tFail tStart tFinish).regOps
      = [RegOp.register task0.identifier, RegOp.unregister task0.identifier] := rfl

/-- C4: when spawning fails with a missing executable, the task ends in
status error with a message naming the missing binary, the finish timestamp
set and the start timestamp still unset, the callback fires exactly once, no
registry operation happens, and a `NucleiExecutionError` propagates to the
caller. -/
theorem spawn_failure_reports_error (task0 : NucleiTask)
    (tFail tStart tFinish : Nat) (hstart : task0.started_at = none) :
    (runTask task0 .fileNotFound true noFaults tFail tStart tFinish).task.status
      = "error" ∧
    (runTask task0 .fileNotFound true noFaults tFail tStart tFinish).task.error
      = some ("Nuclei binary not found: " ++ task0.binary) ∧
    (runTask task0 .fileNotFound true noFaults tFail tStart tFinish).task.finished_at
      = some tFail ∧
    (runTask task0 .fileNotFound true noFaults tFail tStart tFinish).task.started_at
      = none ∧
    (runTask task0 .fileNotFound true noFaults tFail tStart tFinish).callbacks.length
      = 1 ∧
    (runTask task0 .fileNotFound true noFaults tFail tStart tFinish).regOps = [] ∧
    (runTask task0 .fileNotFound true noFaults tFail tStart tFinish).exn
      = some (ExnKind.nucleiExecutionError ("Nuclei binary not found: " ++ task0.binary)) :=
  ⟨rfl, rfl, rfl, hstart, rfl, rfl, rfl⟩

/-- C4 witness: a concrete fresh task run against a missing executable. -/
theorem spawn_failure_reports_error_witness :
    (runTask freshTask .fileNotFound true noFaults 7 8 9).task.status = "error" ∧
    (runTask freshTask .fileNotFound true noFaults 7 8 9).task.error
      = some "Nuclei binary not found: nuclei" ∧
    (runTask freshTask .fileNotFound true noFaults 7 8 9).task.finished_at = some 7 ∧
    (runTask freshTask .fileNotFound true noFaults 7 8 9).task.started_at = none ∧
    (runTask freshTask .fileNotFound true noFaults 7 8 9).callbacks.length = 1 ∧
    (runTask freshTask .fileNotFound true noFaults 7 8 9).regOps = [] ∧
    (runTask freshTask .fileNotFound true noFaults 7 8 9).exn
      = some (ExnKind.nucleiExecutionError "Nuclei binary not found: nuclei") :=
  spawn_failure_reports_error freshTask 7 8 9 rfl

/-- C5: once the output stream closes (a stream with no aborting non-object
line, no environment fault), the runner stamps the finish time and classifies
by exit code: zero gives status completed with progress exactly 1; non-zero
gives status error with the captured stderr text as message, or the generic
non-zero-exit message when stderr is empty. -/
theorem completion_classifies_exit (task0 : NucleiTask) (stdout : List OutLine)
    (stderr : String) (exitCode : Int) (hasCb : Bool) (tFail tStart tFinish : Nat)
    (hgood : ∀ l ∈ stdout, l.isBad = false) :
    (runTask task0 (.ok stdout stderr exitCode) hasCb noFaults
        tFail tStart tFinish).task.finished_at = some tFinish ∧
    (exitCode = 0 →
      (runTask task0 (.ok stdout stderr exitCode) hasCb noFaults
          tFail tStart tFinish).task.status = "completed" ∧
      (runTask task0 (.ok stdout stderr exitCode) hasCb noFaults
          tFail tStart tFinish).task.progress = 1) ∧
    (exitCode ≠ 0 →
      (runTask task0 (.ok stdout stderr exitCode) hasCb noFaults
          tFail tStart tFinish).task.status = "error" ∧
      (runTask task0 (.ok stdout stderr exitCode) hasCb noFaults
          tFail tStart tFinish).task.error
        = some (if stderr = "" then "Nuclei exited with code " ++ toString exitCode
            else stderr)) := by
  have hexn := (streamLoop_good (max task0.targets.length 1) hasCb noFaults
    (fun _ => rfl) stdout
    { task := { task0 with status := "running", started_at := some tStart },
      processed := 0, cbIdx := 0, callbacks := [], exn := none } rfl hgood).1
  refine ⟨?_, ?_, ?_⟩ <;>
    simp only [runTask] <;> rw [hexn] <;>
    by_cases hz : exitCode = 0 <;> simp [noFaults, hz]

/-- C5 witness: concrete run with empty stderr and exit code 2 — generic
non-zero-exit message; finish timestamp stamped. -/
theorem completion_classifies_exit_witness :
    (runTask freshTask (.ok [OutLine.decoded sampleRecord] "" 2) true noFaults
        0 1 2).task.finished_at = some 2 ∧
    (runTask freshTask (.ok [OutLine.decoded sampleRecord] "" 2) true noFaults
        0 1 2).task.status = "error" ∧
    (runTask freshTask (.ok [OutLine.decoded sampleRecord] "" 2) true noFaults
        0 1 2).task.error = some "Nuclei exited with code 2" := by
  have h := completion_classifies_exit freshTask [OutLine.decoded sampleRecord] "" 2
    true 0 1 2 (by decide)
  refine ⟨h.1, (h.2.2 (by decide)).1, ?_⟩
  have := (h.2.2 (by decide)).2
  simpa using this

/-- C6 (amended): lines that are empty or fail JSON decoding are silently
skipped without aborting the task, contributing no result record: on any
stream whose decoded lines are all JSON objects, the run raises no fault and
appends exactly one result per decoded-object line — in particular one
malformed (undecodable) line followed by one well-formed record yields
exactly one result. Lines decoding to a non-object JSON value are NOT
skipped (see the counterexample). -/
theorem malformed_lines_skipped (task0 : NucleiTask) (stdout : List OutLine)
    (stderr : String) (hasCb : Bool) (tFail tStart tFinish : Nat)
    (hgood : ∀ l ∈ stdout, l.isBad = false) :
    (runTask task0 (.ok stdout stderr 0) hasCb noFaults tFail tStart tFinish).exn
      = none ∧
    (runTask task0 (.ok stdout stderr 0) hasCb noFaults
        tFail tStart tFinish).task.results.length
      = task0.results.length + stdout.countP OutLine.isRecord := by
  obtain ⟨hexn, hcnt, -⟩ := streamLoop_good (max task0.targets.length 1) hasCb noFaults
    (fun _ => rfl) stdout
    { task := { task0 with status := "running", started_at := some tStart },
      processed := 0, cbIdx := 0, callbacks := [], exn := none } rfl hgood
  refine ⟨?_, ?_⟩ <;> simp only [runTask] <;> rw [hexn]
  · simp [noFaults]
  · simp only [noFaults] at hcnt ⊢
    simp at hcnt ⊢
    exact hcnt

/-- C6 witness: one undecodable line followed by one well-formed record —
exactly one result record, no fault. -/
theorem malformed_lines_skipped_witness :
    freshTask.results = [] ∧
    (runTask freshTask (.ok [OutLine.invalid, OutLine.decoded sampleRecord] "x" 0)
        true noFaults 0 1 2).exn = none ∧
    (runTask freshTask (.ok [OutLine.invalid, OutLine.decoded sampleRecord] "x" 0)
        true noFaults 0 1 2).task.results.length = 1 := by
  have h := malformed_lines_skipped freshTask
    [OutLine.invalid, OutLine.decoded sampleRecord] "x" true 0 1 2 (by decide)
  exact ⟨rfl, h.1, by rw [h.2]; rfl⟩

/-- C6 counterexample: the line `5` fails to parse as a JSON object (it
decodes, but to a number), yet the run is NOT silently continued: the loop
raises `AttributeError` (`payload.get` on a non-dict), no result is appended,
and the task is left in status running rather than reaching completion. -/
theorem non_object_line_aborts :
    (runTask freshTask (.ok [OutLine.decoded (JVal.num 5)] "" 0) true noFaults
        0 1 2).exn = some ExnKind.attributeError ∧
    (runTask freshTask (.ok [OutLine.decoded (JVal.num 5)] "" 0) true noFaults
        0 1 2).task.results.length = 0 ∧
    (runTask freshTask (.ok [OutLine.decoded (JVal.num 5)] "" 0) true noFaults
        0 1 2).task.status = "running" :=
  ⟨rfl, rfl, rfl⟩

/-- C1 (amended): for a task executed with a callback whose process spawns
and whose stream has no aborting non-object line, the callback sequence has
length ≥ 1 and splits as zero or more result updates, each observed with
status running, followed by exactly one final update observed with status
completed or error. No update is guaranteed before the first result: the
runner does not invoke the callback at the spawn-success transition itself,
so the sequence can consist of the final update alone (see the
counterexample). -/
theorem onUpdate_call_path (task0 : NucleiTask) (stdout : List OutLine)
    (stderr : String) (exitCode : Int) (tFail tStart tFinish : Nat)
    (hgood : ∀ l ∈ stdout, l.isBad = false) :
    ∃ pre last,
      (runTask task0 (.ok stdout stderr exitCode) true noFaults
          tFail tStart tFinish).callbacks = pre ++ [last] ∧
      1 ≤ (runTask task0 (.ok stdout stderr exitCode) true noFaults
          tFail tStart tFinish).callbacks.length ∧
      (∀ c ∈ pre, c.status = "running") ∧
      (last.status = "completed" ∨ last.status = "error") := by
  obtain ⟨added, hadd, haddP⟩ := streamLoop_callbacks (max task0.targets.length 1)
    true noFaults stdout
    { task := { task0 with status := "running", started_at := some tStart },
      processed := 0, cbIdx := 0, callbacks := [], exn := none }
  have hexn := (streamLoop_good (max task0.targets.length 1) true noFaults
    (fun _ => rfl) stdout
    { task := { task0 with status := "running", started_at := some tStart },
      processed := 0, cbIdx := 0, callbacks := [], exn := none } rfl hgood).1
  refine ⟨(streamLoop (max task0.targets.length 1) true noFaults stdout
      { task := { task0 with status := "running", started_at := some tStart },
        processed := 0, cbIdx := 0, callbacks := [], exn := none }).callbacks,
    (runTask task0 (.ok stdout stderr exitCode) true noFaults
      tFail tStart tFinish).task, rfl, ?_, ?_, ?_⟩
  · show 1 ≤ ((streamLoop (max task0.targets.length 1) true noFaults stdout
      { task := { task0 with status := "running", started_at := some tStart },
        processed := 0, cbIdx := 0, callbacks := [], exn := none }).callbacks
        ++ [(runTask task0 (.ok stdout stderr exitCode) true noFaults
          tFail tStart tFinish).task]).length
    simp
  · intro c hc
    rw [hadd, List.nil_append] at hc
    exact (haddP c hc).1
  · simp only [runTask]
    rw [hexn]
    by_cases hz : exitCode = 0 <;> simp [noFaults, hz]

/-- C1 witness: a spawn-success run whose stream holds one blank line and one
record — two callback invocations, a running-status result update then a
completed-status final update. -/
theorem onUpdate_call_path_witness :
    ∃ pre last,
      (runTask freshTask (.ok [OutLine.blank, OutLine.decoded sampleRecord] "" 0)
          true noFaults 0 1 2).callbacks = pre ++ [last] ∧
      1 ≤ (runTask freshTask (.ok [OutLine.blank, OutLine.decoded sampleRecord] "" 0)
          true noFaults 0 1 2).callbacks.length ∧
      (∀ c ∈ pre, c.status = "running") ∧
      (last.status = "completed" ∨ last.status = "error") :=
  onUpdate_call_path freshTask [OutLine.blank, OutLine.decoded sampleRecord] "" 0
    0 1 2 (by decide)

/-- C1 counterexample: a spawn-success run with an empty output stream makes
exactly ONE callback invocation — the final completed transition — so the
claimed "length at least 2" and the claimed running-status invocation before
any result update both fail. -/
theorem onUpdate_single_call :
    (runTask freshTask (.ok [] "" 0) true noFaults 0 1 2).callbacks.map
        (fun c => c.status) = ["completed"] ∧
    ¬ 2 ≤ (runTask freshTask (.ok [] "" 0) true noFaults 0 1 2).callbacks.length :=
  ⟨rfl, by decide⟩

/-- C2: for every freshly created task (progress 0) executed with a callback —
under any spawn outcome, stream content, exit code and environment-fault
pattern — progress over the observed update sequence is monotonically
non-decreasing, never exceeds 0.99 in an update observed with status running,
and equals exactly 1 iff the status is completed, both for every observed
update and for the final task state. -/
theorem progress_monotone_one_iff_completed (task0 : NucleiTask)
    (outcome : SpawnOutcome) (fm : FaultModel) (tFail tStart tFinish : Nat)
    (h0 : task0.progress = 0) :
    List.Chain' (fun a b => a.progress ≤ b.progress)
      (task0 :: (runTask task0 outcome true fm tFail tStart tFinish).callbacks) ∧
    (∀ c ∈ (runTask task0 outcome true fm tFail tStart tFinish).callbacks,
      c.status = "running" → c.progress ≤ 99/100) ∧
    (∀ c ∈ (runTask task0 outcome true fm tFail tStart tFinish).callbacks,
      (c.progress = 1 ↔ c.status = "completed")) ∧
    ((runTask task0 outcome true fm tFail tStart tFinish).task.progress = 1
      ↔ (runTask task0 outcome true fm tFail tStart tFinish).task.status
          = "completed") := by
  cases outcome with
  | fileNotFound =>
      have hcb : (runTask task0 .fileNotFound true fm tFail tStart tFinish).callbacks
          = [(runTask task0 .fileNotFound true fm tFail tStart tFinish).task] := rfl
      have hst : (runTask task0 .fileNotFound true fm tFail tStart tFinish).task.status
          = "error" := rfl
      have hpr : (runTask task0 .fileNotFound true fm tFail tStart tFinish).task.progress
          = 0 := h0
      refine ⟨?_, ?_, ?_, ?_⟩
      · rw [hcb]
        exact List.chain'_cons.mpr ⟨le_of_eq (h0.trans hpr.symm), List.chain'_singleton _⟩
      · intro c hc hcr
        rw [hcb, List.mem_singleton] at hc
        subst hc
        rw [hst] at hcr
        exact absurd hcr (by decide)
      · intro c hc
        rw [hcb, List.mem_singleton] at hc
        subst hc
        rw [hpr, hst]
        decide
      · rw [hpr, hst]
        decide
  | otherError msg =>
      have hcb : (runTask task0 (.otherError msg) true fm tFail tStart tFinish).callbacks
          = [(runTask task0 (.otherError msg) true fm tFail tStart tFinish).task] := rfl
      have hst : (runTask task0 (.otherError msg) true fm tFail tStart tFinish).task.status
          = "error" := rfl
      have hpr : (runTask task0 (.otherError msg) true fm tFail tStart tFinish).task.progress
          = 0 := h0
      refine ⟨?_, ?_, ?_, ?_⟩
      · rw [hcb]
        exact List.chain'_cons.mpr ⟨le_of_eq (h0.trans hpr.symm), List.chain'_singleton _⟩
      · intro c hc hcr
        rw [hcb, List.mem_singleton] at hc
        subst hc
        rw [hst] at hcr
        exact absurd hcr (by decide)
      · intro c hc
        rw [hcb, List.mem_singleton] at hc
        subst hc
        rw [hpr, hst]
        decide
      · rw [hpr, hst]
        decide
  | ok stdout stderr exitCode =>
      obtain ⟨inv1, chain1, nonneg1⟩ := streamLoop_chain (max task0.targets.length 1)
        fm stdout
        { task := { task0 with status := "running", started_at := some tStart },
          processed := 0, cbIdx := 0, callbacks := [], exn := none }
        (by show task0.progress = _
            rw [h0, Nat.cast_zero, zero_div, min_eq_left]
            norm_num)
        (List.chain'_singleton _)
        (by intro c hc
            rw [List.nil_append, List.mem_singleton] at hc
            subst hc
            exact le_of_eq h0.symm)
      obtain ⟨added, hadd, haddP⟩ := streamLoop_callbacks (max task0.targets.length 1)
        true fm stdout
        { task := { task0 with status := "running", started_at := some tStart },
          processed := 0, cbIdx := 0, callbacks := [], exn := none }
      obtain ⟨hstat, -, -, -⟩ := streamLoop_task_fields (max task0.targets.length 1)
        true fm stdout
        { task := { task0 with status := "running", started_at := some tStart },
          processed := 0, cbIdx := 0, callbacks := [], exn := none }
      have F : ((runTask task0 (.ok stdout stderr exitCode) true fm
              tFail tStart tFinish).task.status = "running"
            ∧ (runTask task0 (.ok stdout stderr exitCode) true fm
              tFail tStart tFinish).task.progress
              = (streamLoop (max task0.targets.length 1) true fm stdout
                { task := { task0 with status := "running", started_at := some tStart },
                  processed := 0, cbIdx := 0, callbacks := [], exn := none }).task.progress)
          ∨ ((runTask task0 (.ok stdout stderr exitCode) true fm
              tFail tStart tFinish).task.status = "error"
            ∧ (runTask task0 (.ok stdout stderr exitCode) true fm
              tFail tStart tFinish).task.progress
              = (streamLoop (max task0.targets.length 1) true fm stdout
                { task := { task0 with status := "running", started_at := some tStart },
                  processed := 0, cbIdx := 0, callbacks := [], exn := none }).task.progress)
          ∨ ((runTask task0 (.ok stdout stderr exitCode) true fm
              tFail tStart tFinish).task.status = "completed"
            ∧ (runTask task0 (.ok stdout stderr exitCode) true fm
              tFail tStart tFinish).task.progress = 1) := by
        simp only [runTask]
        cases hexn : (streamLoop (max task0.targets.length 1) true fm stdout
            { task := { task0 with status := "running", started_at := some tStart },
              processed := 0, cbIdx := 0, callbacks := [], exn := none }).exn with
        | some e => exact Or.inl ⟨hstat, rfl⟩
        | none =>
            cases hdf : fm.drainFault with
            | true => exact Or.inl ⟨hstat, rfl⟩
            | false =>
                by_cases hz : exitCode = 0
                · exact Or.inr (Or.inr (by simp [hz]))
                · exact Or.inr (Or.inl (by simp [hz]))
      have hcbs : (runTask task0 (.ok stdout stderr exitCode) true fm
            tFail tStart tFinish).callbacks
          = (streamLoop (max task0.targets.length 1) true fm stdout
              { task := { task0 with status := "running", started_at := some tStart },
                processed := 0, cbIdx := 0, callbacks := [], exn := none }).callbacks
            ++ [(runTask task0 (.ok stdout stderr exitCode) true fm
              tFail tStart tFinish).task] := rfl
      have hstle : (streamLoop (max task0.targets.length 1) true fm stdout
            { task := { task0 with status := "running", started_at := some tStart },
              processed := 0, cbIdx := 0, callbacks := [], exn := none }).task.progress
          ≤ 99/100 := by
        rw [inv1]
        exact min_le_right _ _
      have hle : (streamLoop (max task0.targets.length 1) true fm stdout
            { task := { task0 with status := "running", started_at := some tStart },
              processed := 0, cbIdx := 0, callbacks := [], exn := none }).task.progress
          ≤ (runTask task0 (.ok stdout stderr exitCode) true fm
            tFail tStart tFinish).task.progress := by
        rcases F with ⟨-, hp⟩ | ⟨-, hp⟩ | ⟨-, hp⟩
        · exact le_of_eq hp.symm
        · exact le_of_eq hp.symm
        · rw [hp]; exact le_trans hstle (by norm_num)
      have hr0 : 0 ≤ (runTask task0 (.ok stdout stderr exitCode) true fm
          tFail tStart tFinish).task.progress := by
        rcases F with ⟨-, hp⟩ | ⟨-, hp⟩ | ⟨-, hp⟩
        · rw [hp]
          exact nonneg1 _ (List.mem_append_right _ (List.mem_singleton.mpr rfl))
        · rw [hp]
          exact nonneg1 _ (List.mem_append_right _ (List.mem_singleton.mpr rfl))
        · rw [hp]; norm_num
      have hfinal : ((runTask task0 (.ok stdout stderr exitCode) true fm
            tFail tStart tFinish).task.progress = 1
          ↔ (runTask task0 (.ok stdout stderr exitCode) true fm
            tFail tStart tFinish).task.status = "completed") := by
        rcases F with ⟨hs, hp⟩ | ⟨hs, hp⟩ | ⟨hs, hp⟩
        · constructor
          · intro h1
            rw [hp] at h1
            rw [h1] at hstle
            norm_num at hstle
          · intro hcs
            exact absurd (hs.symm.trans hcs) (by decide)
        · constructor
          · intro h1
            rw [hp] at h1
            rw [h1] at hstle
            norm_num at hstle
          · intro hcs
            exact absurd (hs.symm.trans hcs) (by decide)
        · rw [hp, hs]
          simp
      refine ⟨?_, ?_, ?_, hfinal⟩
      · rw [hcbs]
        refine List.chain'_cons'.mpr ⟨?_, chain_progress_replace _ _ hle _ chain1⟩
        intro y hy
        have hmem := List.mem_of_mem_head? hy
        show task0.progress ≤ y.progress
        rw [h0]
        rcases List.mem_append.mp hmem with hm | hm
        · exact nonneg1 y (List.mem_append_left _ hm)
        · rw [List.mem_singleton] at hm
          subst hm
          exact hr0
      · intro c hc hcr
        rw [hcbs] at hc
        rcases List.mem_append.mp hc with hm | hm
        · rw [hadd, List.nil_append] at hm
          exact (haddP c hm).2
        · rw [List.mem_singleton] at hm
          subst hm
          rcases F with ⟨-, hp⟩ | ⟨hs, -⟩ | ⟨hs, -⟩
          · rw [hp]; exact hstle
          · exact absurd (hs.symm.trans hcr) (by decide)
          · exact absurd (hs.symm.trans hcr) (by decide)
      · intro c hc
        rw [hcbs] at hc
        rcases List.mem_append.mp hc with hm | hm
        · rw [hadd, List.nil_append] at hm
          obtain ⟨hs, hp⟩ := haddP c hm
          constructor
          · intro h1
            rw [h1] at hp
            norm_num at hp
          · intro hcs
            exact absurd (hs.symm.trans hcs) (by simp)
        · rw [List.mem_singleton] at hm
          subst hm
          exact hfinal

/-- C2 witness: a concrete fresh task streamed one record and exiting 0. -/
theorem progress_monotone_one_iff_completed_witness :
    List.Chain' (fun a b => a.progress ≤ b.progress)
      (freshTask :: (runTask freshTask (.ok [OutLine.decoded sampleRecord] "" 0)
        true noFaults 0 1 2).callbacks) ∧
    (∀ c ∈ (runTask freshTask (.ok [OutLine.decoded sampleRecord] "" 0)
        true noFaults 0 1 2).callbacks,
      c.status = "running" → c.progress ≤ 99/100) ∧
    (∀ c ∈ (runTask freshTask (.ok [OutLine.decoded sampleRecord] "" 0)
        true noFaults 0 1 2).callbacks,
      (c.progress = 1 ↔ c.status = "completed")) ∧
    ((runTask freshTask (.ok [OutLine.decoded sampleRecord] "" 0)
        true noFaults 0 1 2).task.progress = 1
      ↔ (runTask freshTask (.ok [OutLine.decoded sampleRecord] "" 0)
          true noFaults 0 1 2).task.status = "completed") :=
  progress_monotone_one_iff_completed freshTask
    (.ok [OutLine.decoded sampleRecord] "" 0) noFaults 0 1 2 rfl
